import Mathlib

/-!
Shallow embedding of `updater.py`, the static-site post-processing pipeline of
the redleaves repository.

The BeautifulSoup document tree is modelled by `Node`: an element with a tag
name, an attribute list, and a list of children, or a bare string.  The node
passed to every helper plays the role of the soup object handed around by the
script: CSS selection searches its strict descendants, never the node itself
(in bs4 the root is the `[document]` pseudo-element and is never matched).

HTML fragments that the script builds as f-strings and immediately re-parses
are modelled as the `Node` values the parse produces; purely lexical artefacts
of that round trip (inter-element whitespace text nodes) are elided.
-/

/-- A document node: a tag with attributes and children, or a string. -/
inductive Node where
  | text (s : String)
  | elem (tag : String) (attrs : List (String × String)) (children : List Node)

/-- One simple CSS selector step, covering exactly the selector forms the
script uses: tag name, `.class`, `#id`, and `[attr="value"]`. -/
inductive SSel where
  | tag (t : String)
  | cls (c : String)
  | idIs (i : String)
  | attrEq (k : String) (v : String)

/-- A selector: a descendant chain of simple steps (e.g. `.readmore a`). -/
abbrev Sel := List SSel

/-- A path of child indices from the soup root down to a node. -/
abbrev NPath := List Nat

/-- First value bound to an attribute key, as in a bs4 attribute dict. -/
def attrVal (attrs : List (String × String)) (k : String) : Option String :=
  match attrs with
  | [] => none
  | (k2, v) :: rest => if k2 == k then some v else attrVal rest k

/-- Split a character list on whitespace, keeping the nonempty words. -/
def wsWords (cur : List Char) (l : List Char) : List String :=
  match l with
  | [] => if cur.isEmpty then [] else [String.mk cur]
  | c :: rest =>
    if c.isWhitespace then
      (if cur.isEmpty then [] else [String.mk cur]) ++ wsWords [] rest
    else wsWords (cur ++ [c]) rest

/-- The whitespace-separated class list of an attribute set. -/
def classList (attrs : List (String × String)) : List String :=
  match attrVal attrs "class" with
  | some v => wsWords [] v.data
  | none => []

/-- Does an element with tag `t` and attributes `a` match one simple step? -/
def matchesS (s : SSel) (t : String) (a : List (String × String)) : Bool :=
  match s with
  | .tag t2 => t == t2
  | .cls c => (classList a).contains c
  | .idIs i => attrVal a "id" == some i
  | .attrEq k v => attrVal a k == some v

/-- Advance the active chain suffixes through an element with tag `t` and
attributes `a`.  The first component reports whether the element itself is a
match (some suffix is a single step the element satisfies); the second is the
set of suffixes active for its descendants: every suffix stays active (the
descendant combinator may skip levels) and a suffix whose head the element
satisfies additionally exposes its tail. -/
def stepStates (states : List Sel) (t : String) (a : List (String × String)) :
    Bool × List Sel :=
  (states.any fun st =>
     match st with
     | [s] => matchesS s t a
     | _ => false,
   states ++ states.filterMap fun st =>
     match st with
     | s1 :: s2 :: rest => if matchesS s1 t a then some (s2 :: rest) else none
     | _ => none)

mutual
/-- Paths of all matches within the subtree of a node sitting at path `p`,
in document (preorder) position. -/
def mpN (states : List Sel) (p : NPath) (n : Node) : List NPath :=
  match n with
  | .text _ => []
  | .elem t a ccs =>
    (if (stepStates states t a).1 then [p] else [])
      ++ mpL (stepStates states t a).2 p 0 ccs

/-- Paths of all matches within a child list; `p` is the path of the parent,
`i` the index of the first child in `l`. -/
def mpL (states : List Sel) (p : NPath) (i : Nat) (l : List Node) : List NPath :=
  match l with
  | [] => []
  | c :: cs => mpN states (p ++ [i]) c ++ mpL states p (i + 1) cs
end

/-- `soup.select(selector)`, returning the paths of all matched strict
descendants of `soup` in document order.  The root is never itself a match
but can serve as an ancestor for a descendant chain. -/
def matchPaths (soup : Node) (chain : Sel) : List NPath :=
  match soup with
  | .text _ => []
  | .elem t a cs => mpL (stepStates [chain] t a).2 [] 0 cs

/-- The node sitting at a path, if the path is valid. -/
def nodeAt (n : Node) (p : NPath) : Option Node :=
  match n, p with
  | n, [] => some n
  | .text _, _ :: _ => none
  | .elem _ _ cs, i :: rest =>
    match cs[i]? with
    | some c => nodeAt c rest
    | none => none

mutual
/-- Append `child` as the last child of the node at path `p` (total: an
invalid path, which never arises from `matchPaths`, leaves the tree alone). -/
def appendAt (n : Node) (p : NPath) (child : Node) : Node :=
  match n, p with
  | .elem t a cs, [] => .elem t a (cs ++ [child])
  | .text t, _ => .text t
  | .elem t a cs, i :: rest => .elem t a (appendAtL cs i rest child)

def appendAtL (l : List Node) (i : Nat) (p : NPath) (child : Node) : List Node :=
  match l, i with
  | [], _ => []
  | c :: cs, 0 => appendAt c p child :: cs
  | c :: cs, Nat.succ j => c :: appendAtL cs j p child
end

/-- `soup.select_one(selector)`: first match in document order, or none. -/
def selOne (soup : Node) (chain : Sel) : Option Node :=
  match matchPaths soup chain with
  | [] => none
  | p :: _ => nodeAt soup p

/-- `soup.select(selector)` as nodes, in document order. -/
def selNodes (soup : Node) (chain : Sel) : List Node :=
  (matchPaths soup chain).filterMap (nodeAt soup)

/-- The attribute list of a node (`tag.attrs`); strings have none. -/
def Node.attrsOf (n : Node) : List (String × String) :=
  match n with
  | .elem _ a _ => a
  | .text _ => []

/-!
Mutation helpers (`updater.py`, helper section).  The script collects
`soup.select(...)` results and mutates each in place; the net effect on the
serialized document is the top-down rewrite implemented here (a match nested
inside another match is detached together with its ancestor before its own
turn comes, so only the outermost rewrite is observable).
-/

mutual
/-- Body of `replace_string`: `target.string = replace_str` clears a matched
element and leaves a single string child. -/
def rsN (states : List Sel) (s : String) (n : Node) : Node :=
  match n with
  | .text t => .text t
  | .elem t a ccs =>
    if (stepStates states t a).1 then .elem t a [.text s]
    else .elem t a (rsL (stepStates states t a).2 s ccs)

def rsL (states : List Sel) (s : String) (l : List Node) : List Node :=
  match l with
  | [] => []
  | c :: cs => rsN states s c :: rsL states s cs
end

/-- `replace_string(soup, css_selector, replace_str)`. -/
def replace_string (soup : Node) (chain : Sel) (replace_str : String) : Node :=
  match soup with
  | .text t => .text t
  | .elem t a cs => .elem t a (rsL (stepStates [chain] t a).2 replace_str cs)

mutual
/-- Body of `remove_element` on one node: an unmatched element keeps its tag
and attributes and recurses into its children. -/
def rmN (states : List Sel) (n : Node) : Node :=
  match n with
  | .text t => .text t
  | .elem t a ccs => .elem t a (rmL (stepStates states t a).2 ccs)

/-- Body of `remove_element` on a child list: `target.decompose()` drops a
matched element and its whole subtree. -/
def rmL (states : List Sel) (l : List Node) : List Node :=
  match l with
  | [] => []
  | c :: cs =>
    match c with
    | .text t => .text t :: rmL states cs
    | .elem t a _ =>
      if (stepStates states t a).1 then rmL states cs
      else rmN states c :: rmL states cs
end

/-- `remove_element(soup, css_selector)`. -/
def remove_element (soup : Node) (chain : Sel) : Node :=
  match soup with
  | .text t => .text t
  | .elem t a cs => .elem t a (rmL (stepStates [chain] t a).2 cs)

mutual
/-- Body of `replace_with_element` on one unmatched node. -/
def rwN (states : List Sel) (frag : List Node) (n : Node) : Node :=
  match n with
  | .text t => .text t
  | .elem t a ccs => .elem t a (rwL (stepStates states t a).2 frag ccs)

/-- Body of `replace_with_element` on a child list: each matched element is
replaced wholesale by the freshly parsed fragment (the loop parses
`replace_html` anew for every match, so every match receives its own copy). -/
def rwL (states : List Sel) (frag : List Node) (l : List Node) : List Node :=
  match l with
  | [] => []
  | c :: cs =>
    match c with
    | .text t => .text t :: rwL states frag cs
    | .elem t a _ =>
      if (stepStates states t a).1 then frag ++ rwL states frag cs
      else rwN states frag c :: rwL states frag cs
end

/-- `replace_with_element(soup, css_selector, replace_html)`, with the parsed
fragment `frag` standing for `BeautifulSoup(replace_html, "html.parser")`. -/
def replace_with_element (soup : Node) (chain : Sel) (frag : List Node) : Node :=
  match soup with
  | .text t => .text t
  | .elem t a cs => .elem t a (rwL (stepStates [chain] t a).2 frag cs)

/-- The `<style type="text/css">...</style>` fragment built by `insert_style`. -/
def styleNode (css : String) : Node :=
  .elem "style" [("type", "text/css")] [.text css]

/-- `insert_style(soup, css_style)`: the script runs
`soup.select_one("head").append(style_tag)` unconditionally, so when the
document has no head element `select_one` returns `None` and the attribute
access raises instead of falling back to a no-op. -/
def insert_style (soup : Node) (css_style : String) : Except String Node :=
  match matchPaths soup [SSel.tag "head"] with
  | [] => .error "AttributeError: NoneType object has no attribute append"
  | p :: _ => .ok (appendAt soup p (styleNode css_style))

/-- The value held by the `wrap_tag` variable of `add_children`: initially the
tag-name string parameter, rebound to the created element on every loop
iteration. -/
inductive WrapVal where
  | nm (s : String)
  | tg (e : Node)

/-- `soup.new_tag(x)`.  With a string it builds a fresh empty element of that
name.  With a `Tag` (which happens once `wrap_tag` has been rebound) the
builder looks the "name" up in its set of void elements; bs4 tags define
equality without a hash, so the set lookup raises `TypeError: unhashable
type`. -/
def newTag (v : WrapVal) : Except String Node :=
  match v with
  | .nm s => .ok (.elem s [] [])
  | .tg _ => .error "TypeError: unhashable type: Tag"

/-- `wrap_tag.append(BeautifulSoup(child_html, "html.parser"))`: the parsed
fragment children become the last children of the wrapper. -/
def withKids (n : Node) (kids : List Node) : Node :=
  match n with
  | .elem t a cs => .elem t a (cs ++ kids)
  | .text t => .text t

/-- The loop of `add_children` over the pre-collected match paths, threading
the `wrap_tag` variable.  `setattr(wrap_tag, key, value)` stores the entries
of `wrap_attrs` as plain Python object attributes, not markup attributes, so
they never reach the tree and are not consulted here. -/
def acGo (kids : List Node) (doc : Node) (paths : List NPath) (v : WrapVal) :
    Except String Node :=
  match paths with
  | [] => .ok doc
  | p :: ps =>
    match newTag v with
    | .error e => .error e
    | .ok w =>
      acGo kids (appendAt doc p (withKids w kids)) ps (.tg (withKids w kids))

/-- `add_children(soup, css_selector, child_html, wrap_tag, wrap_attrs)`, with
`kids` standing for the parse of `child_html`.  Because the loop rebinds
`wrap_tag` to the element it builds, a second matched node hands that element
back to `soup.new_tag`, which raises. -/
def add_children (soup : Node) (chain : Sel) (kids : List Node)
    (wrap_tag : String) (wrap_attrs : List (String × String)) :
    Except String Node :=
  acGo kids soup (matchPaths soup chain) (.nm wrap_tag)

/-!
The comment-URL pattern of `add_hypercomments`:

    re.match(r"https?://redleaves\.ru/.*/\d+([^#?]+)[^#]*#hcm=\d+", url)

embedded as a backtracking matcher over the character list of the URL, with
the same greedy, leftmost-first search order as the `re` engine (so the
captured group is the one `match.group(1)` returns).  `re.match` anchors at
the start only; input past the final `\d+` is ignored.
-/

/-- `#hcm=\d+` followed by anything. -/
def hcmTail (s : List Char) : Bool :=
  match s with
  | '#' :: 'h' :: 'c' :: 'm' :: '=' :: c :: _ => c.isDigit
  | _ => false

/-- `[^#]*#hcm=\d+`: the star cannot cross a `#`, so it must stop at the
first `#` of the remaining input. -/
def afterCapture (s : List Char) : Bool :=
  match s with
  | [] => false
  | c :: rest => if c == '#' then hcmTail (c :: rest) else afterCapture rest

/-- Greedy extension of the capture group `([^#?]+)`, already holding `acc`:
prefer consuming one more admissible character; on failure fall back to
closing the group here and matching `[^#]*#hcm=\d+` on the rest. -/
def captureFrom (acc : List Char) (s : List Char) : Option (List Char) :=
  match s with
  | [] => none
  | c :: rest =>
    if c != '#' && c != '?' then
      match captureFrom (acc ++ [c]) rest with
      | some g => some g
      | none => if afterCapture (c :: rest) then some acc else none
    else if afterCapture (c :: rest) then some acc else none

/-- `([^#?]+)...`: the group needs at least one character. -/
def captureStart (s : List Char) : Option (List Char) :=
  match s with
  | [] => none
  | c :: rest =>
    if c != '#' && c != '?' then captureFrom [c] rest else none

/-- `\d+([^#?]+)...` after the first digit: greedily extend the digit run,
backtracking into the capture (digits are admissible capture characters). -/
def afterDigits (s : List Char) : Option (List Char) :=
  match s with
  | [] => none
  | c :: rest =>
    if c.isDigit then
      match afterDigits rest with
      | some g => some g
      | none => captureStart (c :: rest)
    else captureStart (c :: rest)

/-- `/\d+([^#?]+)...`. -/
def slashDigits (s : List Char) : Option (List Char) :=
  match s with
  | '/' :: c :: rest => if c.isDigit then afterDigits rest else none
  | _ => none

/-- `.*/\d+...`: the dot does not match a newline; greedy, so the latest
viable stop position wins. -/
def dotStar (s : List Char) : Option (List Char) :=
  match s with
  | [] => none
  | c :: rest =>
    match (if c != '\n' then dotStar rest else none) with
    | some g => some g
    | none => slashDigits (c :: rest)

/-- Literal-prefix stripper for the scheme-and-host part of the pattern. -/
def stripLit (lit : List Char) (s : List Char) : Option (List Char) :=
  match lit, s with
  | [], rest => some rest
  | _ :: _, [] => none
  | l :: ls, c :: cs => if l == c then stripLit ls cs else none

/-- `://redleaves\.ru/` (the host is hard-coded in the pattern). -/
def hostTail : List Char := "://redleaves.ru/".data

/-- The derived URI fragment of a comment URL: `match.group(1)` of the pattern
above, or `none` when `re.match` fails.  `https?` greedily tries the `s`
first and falls back without it. -/
def hcmMatch (url : String) : Option String :=
  match url.data with
  | 'h' :: 't' :: 't' :: 'p' :: rest =>
    match (match rest with
           | 's' :: rest2 =>
             match stripLit hostTail rest2 with
             | some r => dotStar r
             | none => none
           | _ => none) with
    | some g => some (String.mk g)
    | none =>
      match stripLit hostTail rest with
      | some r => (dotStar r).map String.mk
      | none => none
  | _ => none

/-- Python substring membership `sub in hay` on strings: `startsList` tests a
prefix, `infixList` slides it along the haystack. -/
def startsList (sub hay : List Char) : Bool :=
  match sub, hay with
  | [], _ => true
  | _ :: _, [] => false
  | a :: s2, b :: h2 => a == b && startsList s2 h2

def infixList (sub hay : List Char) : Bool :=
  match hay with
  | [] => sub.isEmpty
  | _ :: t => startsList sub hay || infixList sub t

def strContains (hay sub : String) : Bool :=
  infixList sub.data hay.data

/-!
Pipe stages (`updater.py`, pipes section).
-/

/-- One HyperComments record, as loaded from `hypercomments.json`. -/
structure Comment where
  url : String
  name : String
  avatar : String
  title : String
  date : String
  parent_text : Option String
  text : String

/-- `c["date"].replace("T", " ")`. -/
def dateT (d : String) : String :=
  String.mk (d.data.map fun ch => if ch == 'T' then ' ' else ch)

/-- `generate_comment_html(c)`, as the parsed `div.hc-comment` fragment.  The
quote paragraph is present only when `parent_text` is truthy: for `None` or
the empty string the generated string carries the `%REMOVE-EMPTY%` marker and
the whole `<p class="hc-quote">` line is deleted again by `.replace`. -/
def generate_comment_html (c : Comment) : Node :=
  .elem "div" [("class", "hc-comment")]
    [.elem "img" [("src", c.avatar), ("class", "hc-avatar")] [],
     .elem "div" [("class", "hc-content")]
       ([.elem "div" [("class", "hc-header")] [.text c.title],
         .elem "div" [("class", "hc-subheader")]
           [.elem "h3" [("class", "hc-author")] [.text c.name],
            .elem "div" [("class", "hc-date")] [.text (dateT c.date)]]]
        ++ (match c.parent_text with
            | some q => if q == "" then [] else [.elem "p" [("class", "hc-quote")] [.text q]]
            | none => [])
        ++ [.elem "p" [("class", "hc-text")] [.text c.text]])]

def hcCss : String :=
  "\n\n.hc-comment \x7b\n  display: flex;\n  font-size: 1rem;\n  font-family: \"Helvetica Neue\", Helvetica, Arial, sans-serif;\n  font-size: 14px;\n  line-height: 1.42857143;\n  color: #333333;\n\n  padding: 20px;\n  border: 1px solid #e3e3e3;\n  border-radius: 6px;\n  border-top-left-radius: 6px;\n  border-top-right-radius: 6px;\n  border-bottom-right-radius: 6px;\n  border-bottom-left-radius: 6px;\n  -moz-border-radius: 6px;\n  -webkit-border-radius: 6px;\n\x7d\n\n.hc-avatar \x7b\n  display: block;\n  width: 48px;\n  height: 48px;\n  border-radius: 100%;\n\x7d\n\n.hc-content \x7b\n  font-size: 12p3;\n  padding: 0 1rem;\n\x7d\n\n.hc-header \x7b\n  font-size: 0.75rem;\n  font-weight: 700;\n  line-height: 1.125rem;\n  color: #909090;\n\x7d\n\n.hc-author \x7b\n  margin: 0;\n  font-size: 0.9125rem;\n  font-weight: 700;\n  float: left;\n  color: #222;\n  cursor: pointer;\n\x7d\n\n.hc-subheader \x7b\n  display: flex;\n  align-items: flex-end;\n\x7d\n\n.hc-date \x7b\n  margin: 0;\n  margin-left: 1rem;\n  color: #909090;\n  font-size: 0.6875rem;\n  margin-left: 0.3125rem;\n  margin-bottom: 1px;\n  font-weight: 700;\n\x7d\n\n.hc-quote \x7b\n  font-size: 0.8125rem;\n  line-height: 1rem;\n  font-style: italic;\n  color: #909090;\n  margin-bottom: 0.625rem;\n  background-color: #fff;\n  padding: 0.625rem;\n  border-left: 3px solid #d8cdcd;\n\x7d\n\n.hc-text \x7b\n  font-size: 0.9375rem;\n  line-height: 1.25rem;\n  color: #222;\n  margin-bottom: 0.625rem;\n  word-wrap: break-word;\n\x7d\n\n/* FIXES */\n\n.kmt-list * \x7b\n    font-size: 14px !important;\n    line-height: 1.4 !important;\n\x7d\n\n.hc-header, .hc-date \x7b\n    font-size: 10px !important;\n\x7d\n\n.hc-comment \x7b\n    padding-top: 10px !important;\n    padding-left: 30px !important;\n    border-top: 1px solid #ddd !important;\n\x7d\n\n.hc-subheader \x7b\n    margin-bottom: 10px\n\x7d\n"

/-- The per-comment loop of `add_hypercomments`, threading the soup and the
`has_hc_comments` flag: a comment whose URL matches the pattern and whose
captured fragment occurs in the file name is rendered and appended into the
`.kmt-list` container via `add_children`. -/
def hcLoop (file_name : String) (comments : List Comment) (soup : Node)
    (has : Bool) : Except String (Node × Bool) :=
  match comments with
  | [] => .ok (soup, has)
  | c :: rest =>
    match hcmMatch c.url with
    | some frag =>
      if strContains file_name frag then
        match add_children soup [SSel.cls "kmt-list"] [generate_comment_html c] "li" [] with
        | .error e => .error e
        | .ok soup2 => hcLoop file_name rest soup2 true
      else hcLoop file_name rest soup has
    | none => hcLoop file_name rest soup has

/-- `add_hypercomments(soup, file_name, comments)`: when the comments list
container exists, append every correlated comment; if at least one was
appended, remove the "no comments yet" placeholder and inject the comments
stylesheet. -/
def add_hypercomments (soup : Node) (file_name : String)
    (comments : List Comment) : Except String Node :=
  match selOne soup [SSel.cls "kmt-list"] with
  | none => .ok soup
  | some _ =>
    match hcLoop file_name comments soup false with
    | .error e => .error e
    | .ok (soup2, has) =>
      if has then
        insert_style (remove_element soup2 [SSel.cls "kmt-empty-comment"]) hcCss
      else .ok soup2

/-- The fixed replacement slogan of `change_slogan`. -/
def sloganText : String :=
  "Литературный проект, объединяющий молодых авторов. Архивная версия"

/-- `change_slogan(soup)`. -/
def change_slogan (soup : Node) : Node :=
  replace_string soup [SSel.cls "site-slogan"] sloganText

/-- The parsed navigational fragment of `add_categories_to_homepage`. -/
def categoriesHtml : List Node :=
  [.elem "div" []
     [.elem "h3" []
        [.text "Ещё больше произведений в разделе ",
         .elem "a" [("href", "index.phpoptioncom_contentviewcategorylayoutblogid9itemid264.htm")]
           [.text "Проза"],
         .text " и ",
         .elem "a" [("href", "index.phpoptioncom_contentviewcategorylayoutblogid8itemid263.htm")]
           [.text "Стихи"]]]]

/-- Python `str.endswith`, charwise over the reversed character lists. -/
def endsWithCh (s suffix : String) : Bool :=
  startsList suffix.data.reverse s.data.reverse

/-- `add_categories_to_homepage(soup, file_path)`. -/
def add_categories_to_homepage (soup : Node) (file_path : String) :
    Except String Node :=
  if endsWithCh file_path "default.htm" then
    add_children soup [SSel.cls "t3-content"] categoriesHtml "div" []
  else .ok soup

/-- The static `(selector, replacement fragment)` table of `fix_images`. -/
def images_src : List (Sel × List Node) :=
  [([SSel.attrEq "alt" "97465406_plusBh1rgU9NG3H3fC9JhhFVKTDrA7sq4D2oWLA_0187f.jpg"],
    [.elem "img"
       [("src", "https://raw.githubusercontent.com/redleaves-ru/redleaves-ru.github.io/main/site/images/tony/97465406_plusbh1rgu9ng3h3fc9jhhfvktdra7sq4d2owla_0187f.jpg"),
        ("width", "496"), ("alt", "image for article")] []])]

/-- `fix_images(soup)`. -/
def fix_images (soup : Node) : Node :=
  images_src.foldl (fun acc entry => replace_with_element acc entry.1 entry.2) soup

/-- `clean_commentaries_section(soup)`. -/
def clean_commentaries_section (soup : Node) : Node :=
  remove_element (remove_element soup [SSel.cls "commentForm"]) [SSel.cls "kmt-addyours"]

/-- `remove_messages(soup)`. -/
def remove_messages (soup : Node) : Node :=
  remove_element soup [SSel.idIs "system-message-container"]

/-- The `.readmore a` selector of `make_images_clickable`. -/
def rmChain : Sel := [SSel.cls "readmore", SSel.tag "a"]

/-- The loop of `make_images_clickable` over the pre-collected `article`
elements.  When a "read more" link exists the script builds the wrapping
anchor string and then evaluates `img.attrs["src"]`: with no image in the
article, `img` is `None` and the attribute access raises; it never falls back
to skipping the article.  Articles themselves are only ever ancestors of the
replaced image nodes, so their collected paths stay valid across iterations. -/
def micGo (doc : Node) (paths : List NPath) : Except String Node :=
  match paths with
  | [] => .ok doc
  | p :: ps =>
    match nodeAt doc p with
    | none => micGo doc ps
    | some article =>
      match selOne article rmChain with
      | none => micGo doc ps
      | some rm =>
        match attrVal rm.attrsOf "href" with
        | none => .error "KeyError: href"
        | some href =>
          match selOne article [SSel.tag "img"] with
          | none => .error "AttributeError: NoneType object has no attribute attrs"
          | some img =>
            match attrVal img.attrsOf "src" with
            | none => .error "KeyError: src"
            | some src =>
              micGo (replace_with_element doc [SSel.attrEq "src" src]
                      [.elem "a" [("href", href)] [img]]) ps

/-- `make_images_clickable(soup)`. -/
def make_images_clickable (soup : Node) : Except String Node :=
  micGo soup (matchPaths soup [SSel.tag "article"])

/-!
Pipeline runner (`process_html`, `apply_pipeline`) and the write-back step.
A stage either mutates the soup or raises; `process_html` catches nothing, so
the first raising stage aborts the document.  Threads of the executor are
modelled by running every submitted task to completion independently: an
exception inside a task is stored in its future, and since the progress loop
never calls `future.result()`, it neither re-raises nor records it.
-/

/-- The fixed `pipe_stages` list of `process_html` (the `fix_external_urls`
entry is commented out in the source). -/
def pipe_stages (file_path : String) (comments : List Comment) :
    List (Node → Except String Node) :=
  [fun soup => .ok (change_slogan soup),
   fun soup => add_categories_to_homepage soup file_path,
   fun soup => .ok (fix_images soup),
   fun soup => .ok (clean_commentaries_section soup),
   fun soup => .ok (remove_messages soup),
   make_images_clickable,
   fun soup => add_hypercomments soup file_path comments]

/-- `process_html(file_path, metadata)` between parse and write: the parsed
soup threaded through every pipe stage in order. -/
def process_html (file_path : String) (comments : List Comment) (soup : Node) :
    Except String Node :=
  (pipe_stages file_path comments).foldlM (fun s stage => stage s) soup

/-- What `apply_pipeline` produces: one future result per discovered file,
the number of `tqdm` progress ticks (one per completed future, successes and
failures alike), and the per-task error records the loop writes (none: the
loop body only updates the bar). -/
structure RunReport where
  results : List (Except String Node)
  progress : Nat
  loggedFailures : List String

/-- `apply_pipeline` over already-parsed documents: every submitted task runs
regardless of the outcome of its siblings. -/
def apply_pipeline (tasks : List (String × Node)) (comments : List Comment) :
    RunReport :=
  ⟨tasks.map fun t => process_html t.1 comments t.2,
   (tasks.map fun t => process_html t.1 comments t.2).length,
   []⟩

/-- A flat file store: association list from path to content. -/
def setFile (fs : List (String × String)) (p c : String) :
    List (String × String) :=
  match fs with
  | [] => [(p, c)]
  | (q, d) :: rest => if q == p then (q, c) :: rest else (q, d) :: setFile rest p c

def readFile (fs : List (String × String)) (p : String) : Option String :=
  match fs with
  | [] => none
  | (q, d) :: rest => if q == p then some d else readFile rest p

/-- The write-back step of `process_html`:

    with open(file_path, "w", encoding="UTF-8") as f:
        f.write(str(soup))

`open(..., "w")` truncates the file at once; the serialized soup is written
afterwards.  `failMidWrite` marks a failure between the truncation and the
write completing, after which the store holds the truncated (empty) file. -/
def writeBack (fs : List (String × String)) (path content : String)
    (failMidWrite : Bool) : List (String × String) :=
  if failMidWrite then setFile fs path ""
  else setFile (setFile fs path "") path content

/-!
Concrete documents and records used to exercise the stages.
-/

/-- The end-to-end scenario URL of the specification (host `example.ru`). -/
def exampleRuUrl : String :=
  "https://example.ru/section/42article-name.html?x=1#hcm=7"

/-- The same URL on the host the pattern actually requires. -/
def redleavesUrl : String :=
  "https://redleaves.ru/section/42article-name.html?x=1#hcm=7"

/-- Absolute path of the document named `42article-name.html`. -/
def articleFilePath : String := "/site/section/42article-name.html"

def exampleRuComment : Comment :=
  ⟨exampleRuUrl, "Мария", "ava.png", "Комментарий", "2015-07-01T12:00:00",
   none, "Отличный текст"⟩

def redleavesComment : Comment :=
  ⟨redleavesUrl, "Мария", "ava.png", "Комментарий", "2015-07-01T12:00:00",
   none, "Отличный текст"⟩

/-- A page with a head, an empty comments list and the "no comments yet"
placeholder. -/
def commentedDoc : Node :=
  .elem "html" []
    [.elem "head" [] [],
     .elem "body" []
       [.elem "ul" [("class", "kmt-list")] [],
        .elem "div" [("class", "kmt-empty-comment")] [.text "Комментариев пока нет"]]]

/-- `commentedDoc` after receiving `redleavesComment`: the rendered comment
sits in the list, the placeholder is gone, the stylesheet is in the head. -/
def commentedDocAfter : Node :=
  .elem "html" []
    [.elem "head" [] [styleNode hcCss],
     .elem "body" []
       [.elem "ul" [("class", "kmt-list")]
          [.elem "li" [] [generate_comment_html redleavesComment]]]]

/-- A page with no head element. -/
def headlessDoc : Node := .elem "html" [] [.elem "body" [] []]

/-- An article with a "read more" link but no image. -/
def readmoreNoImgDoc : Node :=
  .elem "html" []
    [.elem "body" []
       [.elem "article" []
          [.elem "div" [("class", "readmore")]
             [.elem "a" [("href", "full.html")] [.text "Читать далее"]]]]]

/-- An article with both a "read more" link and an image. -/
def readmoreImgDoc : Node :=
  .elem "html" []
    [.elem "body" []
       [.elem "article" []
          [.elem "div" [("class", "readmore")]
             [.elem "a" [("href", "full.html")] [.text "Читать далее"]],
           .elem "img" [("src", "pic.jpg")] []]]]

/-- `readmoreImgDoc` after `make_images_clickable`: the image is wrapped in
an anchor pointing at the "read more" href. -/
def readmoreImgDocAfter : Node :=
  .elem "html" []
    [.elem "body" []
       [.elem "article" []
          [.elem "div" [("class", "readmore")]
             [.elem "a" [("href", "full.html")] [.text "Читать далее"]],
           .elem "a" [("href", "full.html")] [.elem "img" [("src", "pic.jpg")] []]]]]

/-- An article with no "read more" link at all. -/
def plainArticleDoc : Node :=
  .elem "html" []
    [.elem "body" [] [.elem "article" [] [.elem "p" [] [.text "Текст"]]]]

/-- A page whose footer holds an explicitly hidden copyright element with
text `s` and an empty custom slot. -/
def footerDocWith (s : String) : Node :=
  .elem "html" []
    [.elem "head" [] [],
     .elem "body" []
       [.elem "footer" []
          [.elem "div" [("class", "copyright"), ("style", "display:none")] [.text s],
           .elem "div" [("class", "custom")] []]]]

def footerDoc : Node := footerDocWith "© Red Leaves"

/-- Two nodes matched by `.box`. -/
def twoBoxDoc : Node :=
  .elem "html" []
    [.elem "div" [("class", "box")] [], .elem "div" [("class", "box")] []]

/-- Exactly one node matched by `.box`. -/
def oneBoxDoc : Node :=
  .elem "html" [] [.elem "div" [("class", "box")] []]

/-- Does a comment record correlate with a document file name?  This is the
condition `comment_uri is not None and comment_uri.group(1) in file_name` of
the per-comment loop. -/
def commentHit (c : Comment) (file_name : String) : Bool :=
  match hcmMatch c.url with
  | some frag => strContains file_name frag
  | none => false

/-- Did the `Except` computation finish without raising? -/
def finishedOk (r : Except String Node) : Bool :=
  match r with
  | .ok _ => true
  | .error _ => false

/-!
Theorems.
-/

theorem readFile_setFile (fs : List (String × String)) (p c : String) :
    readFile (setFile fs p c) p = some c := by
  induction fs with
  | nil => simp [setFile, readFile]
  | cons hd tl ih =>
    obtain ⟨q, d⟩ := hd
    by_cases h : q == p
    · simp [setFile, readFile, h]
    · simp only [setFile, readFile, h]
      simpa [h] using ih

theorem hcLoop_noMatch (file_name : String) (comments : List Comment)
    (soup : Node) (has : Bool)
    (h : ∀ c ∈ comments, commentHit c file_name = false) :
    hcLoop file_name comments soup has = .ok (soup, has) := by
  induction comments with
  | nil => rfl
  | cons c rest ih =>
    have hc := h c (by simp)
    have hrest : ∀ x ∈ rest, commentHit x file_name = false := by
      intro x hx; exact h x (by simp [hx])
    unfold commentHit at hc
    cases hu : hcmMatch c.url with
    | none =>
      simp only [hcLoop, hu]
      exact ih hrest
    | some frag =>
      rw [hu] at hc
      simp only at hc
      simp only [hcLoop, hu]
      rw [if_neg (by simp [hc])]
      exact ih hrest

mutual
theorem rsN_idem (states : List Sel) (s : String) (n : Node) :
    rsN states s (rsN states s n) = rsN states s n := by
  cases n with
  | text t => rfl
  | elem t a ccs =>
    cases h : (stepStates states t a).1 with
    | true => simp [rsN, h]
    | false => simp [rsN, h, rsL_idem (stepStates states t a).2 s ccs]

theorem rsL_idem (states : List Sel) (s : String) (l : List Node) :
    rsL states s (rsL states s l) = rsL states s l := by
  cases l with
  | nil => rfl
  | cons c cs =>
    simp [rsL, rsN_idem states s c, rsL_idem states s cs]
end

theorem micGo_skip (doc : Node) (paths : List NPath)
    (h : ∀ p ∈ paths, ∀ a, nodeAt doc p = some a → selOne a rmChain = none) :
    micGo doc paths = .ok doc := by
  induction paths with
  | nil => rfl
  | cons p ps ih =>
    have hps : ∀ q ∈ ps, ∀ a, nodeAt doc q = some a → selOne a rmChain = none := by
      intro q hq; exact h q (by simp [hq])
    cases hn : nodeAt doc p with
    | none =>
      simp only [micGo, hn]
      exact ih hps
    | some article =>
      have := h p (by simp) article hn
      simp only [micGo, hn, this]
      exact ih hps

/-- Claim C1, counterexample: the URL of the end-to-end scenario has host
`example.ru`, but the pattern in `add_hypercomments` hard-codes
`redleaves.ru`, so `re.match` fails: the derived fragment is absent rather
than `article-name`, and the stage leaves the page (placeholder included)
untouched instead of appending the comment. -/
theorem hcmMatch_exampleRu_counterexample :
    hcmMatch exampleRuUrl = none ∧
      add_hypercomments commentedDoc articleFilePath [exampleRuComment]
        = .ok commentedDoc :=
  ⟨rfl, rfl⟩

/-- Claim C1, amended: with host `redleaves.ru` the derived fragment is
`article-name.html` (the capture runs to the first `?` or `#`, so it keeps
the extension); correlation is substring membership of the fragment in the
file path, which holds for `42article-name.html`, so the document receives
the rendered comment in its comments list, loses the placeholder, and gains
the comments stylesheet. -/
theorem hcmMatch_redleaves_end_to_end :
    hcmMatch redleavesUrl = some "article-name.html" ∧
      strContains articleFilePath "article-name.html" = true ∧
      add_hypercomments commentedDoc articleFilePath [redleavesComment]
        = .ok commentedDocAfter :=
  ⟨rfl, rfl, rfl⟩

/-- Claim C2, counterexample: on a document with no head element,
`insert_style` raises (`select_one` returns `None` and `.append` is called on
it) instead of terminating normally with the document unchanged. -/
theorem insert_style_headless_counterexample :
    insert_style headlessDoc "p \x7b color: red; \x7d"
      = .error "AttributeError: NoneType object has no attribute append" := rfl

/-- Claim C2, amended: with a head element present, `insert_style` appends
the style element carrying the CSS text as the last child of the first head;
with no head element it raises an `AttributeError` instead of being a silent
no-op. -/
theorem insert_style_spec (hAttrs : List (String × String))
    (hKids bodyKids : List Node) (css : String) :
    insert_style (.elem "html" [] [.elem "head" hAttrs hKids, .elem "body" [] bodyKids]) css
        = .ok (.elem "html" []
            [.elem "head" hAttrs (hKids ++ [styleNode css]),
             .elem "body" [] bodyKids])
      ∧ (∀ (doc : Node) (css2 : String), matchPaths doc [SSel.tag "head"] = [] →
          insert_style doc css2
            = .error "AttributeError: NoneType object has no attribute append") := by
  constructor
  · rfl
  · intro doc css2 h
    unfold insert_style
    rw [h]

/-- Witness for the amended C2 theorem at a concrete headless document. -/
theorem insert_style_spec_witness :
    insert_style headlessDoc "q"
      = .error "AttributeError: NoneType object has no attribute append" :=
  (insert_style_spec [] [] [] "q").2 headlessDoc "q" rfl

/-- Claim C3, counterexample: an article with a "read more" link but no image
makes `make_images_clickable` raise (`img` is `None` when the selector string
is built from `img.attrs["src"]`); the stage is not a no-op on such a
container. -/
theorem make_images_clickable_missing_img_counterexample :
    make_images_clickable readmoreNoImgDoc
      = .error "AttributeError: NoneType object has no attribute attrs" := rfl

/-- Claim C3, amended: an article with no "read more" link is skipped — in
particular when no article has one the stage terminates normally and leaves
the document unchanged — and an article with both a "read more" link and an
image gets the image wrapped in an anchor pointing at the "read more" href;
but an article with a "read more" link and no image makes the stage raise
rather than act as a no-op. -/
theorem make_images_clickable_spec :
    (∀ doc : Node,
        (∀ a ∈ selNodes doc [SSel.tag "article"], selOne a rmChain = none) →
          make_images_clickable doc = .ok doc)
      ∧ make_images_clickable readmoreImgDoc = .ok readmoreImgDocAfter := by
  constructor
  · intro doc h
    unfold make_images_clickable
    apply micGo_skip
    intro p hp a hnode
    refine h a ?_
    unfold selNodes
    exact List.mem_filterMap.mpr ⟨p, hp, hnode⟩
  · rfl

/-- Witness for the amended C3 theorem: a page whose only article has no
"read more" link passes through unchanged. -/
theorem make_images_clickable_spec_witness :
    make_images_clickable plainArticleDoc = .ok plainArticleDoc :=
  make_images_clickable_spec.1 plainArticleDoc (by
    intro a ha
    rw [show selNodes plainArticleDoc [SSel.tag "article"]
          = [Node.elem "article" [] [Node.elem "p" [] [Node.text "Текст"]]] from rfl] at ha
    rw [List.mem_singleton] at ha
    subst ha
    rfl)

/-- Claim C4, counterexample: a run over one healthy and one failing document
processes the sibling of the failing task, but the error is only stored in
the discarded task result — the logged-failures record is empty and the
progress count is an undifferentiated total, not a succeeded/failed split. -/
theorem apply_pipeline_counterexample :
    apply_pipeline [("/site/a.html", headlessDoc), ("/site/b.html", readmoreNoImgDoc)] []
      = ⟨[.ok headlessDoc,
          .error "AttributeError: NoneType object has no attribute attrs"], 2, []⟩ := rfl

/-- Claim C4, amended: one task per document runs to completion regardless of
its siblings — the results around any one task are exactly the results of
runs without it — but the run merely counts completed tasks (successes and
failures alike) and records no per-task failure. -/
theorem apply_pipeline_spec (xs zs : List (String × Node)) (y : String × Node)
    (comments : List Comment) :
    (apply_pipeline (xs ++ y :: zs) comments).results
        = (apply_pipeline xs comments).results
            ++ process_html y.1 comments y.2 :: (apply_pipeline zs comments).results
      ∧ (apply_pipeline (xs ++ y :: zs) comments).progress
          = xs.length + 1 + zs.length
      ∧ (apply_pipeline (xs ++ y :: zs) comments).loggedFailures = [] := by
  refine ⟨?_, ?_, rfl⟩
  · simp [apply_pipeline]
  · simp [apply_pipeline]
    omega

/-- Claim C5, counterexample: a page whose footer holds an explicitly hidden
copyright element and an empty custom slot passes through the whole pipe
stage sequence unchanged — no stage removes the hidden copyright element and
no archival notice is appended anywhere. -/
theorem footer_notice_counterexample :
    process_html "/site/page.html" [] footerDoc = .ok footerDoc := rfl

/-- Claim C5, amended: the fixed stage sequence (slogan, homepage categories,
image repair, comment-form removal, system-message removal, image
click-through, imported comments) contains no footer-notice stage: whatever
the hidden copyright text, the footer page is returned unchanged. -/
theorem no_footer_stage (s : String) :
    process_html "/site/page.html" [] (footerDocWith s) = .ok (footerDocWith s) := rfl

/-- Claim C6, counterexample: the write-back is a plain in-place rewrite; a
failure between truncation and write leaves the stored document empty, where
it previously held content. -/
theorem writeBack_truncation_counterexample :
    readFile (writeBack [("/site/d.html", "old")] "/site/d.html" "new" true) "/site/d.html"
        = some ""
      ∧ readFile [("/site/d.html", "old")] "/site/d.html" = some "old" :=
  ⟨rfl, rfl⟩

/-- Claim C6, amended: the serialized content is written straight to the
original path — `open(.., "w")` truncates it first, so a completed write
stores the new content but a mid-write failure leaves the document truncated
to empty; no temporary file or rename is involved. -/
theorem writeBack_spec (fs : List (String × String)) (path content : String) :
    readFile (writeBack fs path content false) path = some content
      ∧ readFile (writeBack fs path content true) path = some "" := by
  constructor
  · simp only [writeBack, Bool.false_eq_true, if_false]
    exact readFile_setFile (setFile fs path "") path content
  · simp only [writeBack, if_true]
    exact readFile_setFile fs path ""

/-- Claim C7, counterexample: with two matched nodes, `add_children` raises
on the second match (the `wrap_tag` variable now holds the element built for
the first match, and `soup.new_tag` cannot use it) instead of appending one
wrapper per match. -/
theorem add_children_two_matches_counterexample :
    add_children twoBoxDoc [SSel.cls "box"] [.text "x"] "li" []
      = .error "TypeError: unhashable type: Tag" := rfl

/-- Claim C7, amended: with no match `add_children` returns the document
unchanged, and with exactly one match it appends one wrapper of
`wrapper_tag_name` holding the parsed `inner_html` as the matched node's last
child — but the wrapper carries no markup attributes whatever
`wrapper_attributes` says (they are stored with `setattr` as plain object
fields), and two or more matches make the call raise. -/
theorem add_children_spec :
    (∀ (soup : Node) (chain : Sel) (kids : List Node) (wt : String)
        (wa : List (String × String)),
        matchPaths soup chain = [] → add_children soup chain kids wt wa = .ok soup)
      ∧ (∀ (kids : List Node) (wa : List (String × String)),
          add_children oneBoxDoc [SSel.cls "box"] kids "li" wa
            = .ok (.elem "html" []
                [.elem "div" [("class", "box")] [.elem "li" [] kids]])) := by
  constructor
  · intro soup chain kids wt wa h
    unfold add_children
    rw [h]
    rfl
  · intro kids wa
    rfl

/-- Witness for the amended C7 theorem at a document with no match. -/
theorem add_children_spec_witness :
    add_children headlessDoc [SSel.cls "box"] [] "li" [] = .ok headlessDoc :=
  add_children_spec.1 headlessDoc [SSel.cls "box"] [] "li" [] rfl

/-- Claim C8: the slogan-replacement stage only checks for the slogan
selector and sets a fixed string, so applying it twice to any document gives
the same result as applying it once. -/
theorem change_slogan_idempotent (d : Node) :
    change_slogan (change_slogan d) = change_slogan d := by
  cases d with
  | text t => rfl
  | elem t a cs =>
    simp only [change_slogan, replace_string]
    rw [rsL_idem]

/-- Claim C9: when no comment record correlates with the document — every
record either fails the URL pattern or has a fragment absent from the file
name — `add_hypercomments` returns the document unchanged: the "no comments
yet" placeholder stays and no stylesheet is injected. -/
theorem add_hypercomments_no_matches (doc : Node) (file_name : String)
    (comments : List Comment)
    (h : ∀ c ∈ comments, commentHit c file_name = false) :
    add_hypercomments doc file_name comments = .ok doc := by
  unfold add_hypercomments
  cases hs : selOne doc [SSel.cls "kmt-list"] with
  | none => rfl
  | some blk =>
    rw [hcLoop_noMatch file_name comments doc false h]
    rfl

/-- Witness for the C9 theorem: a comment whose URL fits the pattern but
whose fragment does not occur in the file name leaves the page unchanged. -/
theorem add_hypercomments_no_matches_witness :
    add_hypercomments commentedDoc "/site/other.html" [redleavesComment]
      = .ok commentedDoc :=
  add_hypercomments_no_matches commentedDoc "/site/other.html" [redleavesComment]
    (by
      intro c hc
      rw [List.mem_singleton] at hc
      subst hc
      rfl)

/-- Claim C10: `add_children` finishes without raising exactly when its
selector matches at most one node — the loop rebinds `wrap_tag` to the
element built for the first match, so the `soup.new_tag` call of the second
iteration receives an element instead of a tag-name string and raises. -/
theorem add_children_single_match_only (soup : Node) (chain : Sel)
    (kids : List Node) (wt : String) (wa : List (String × String)) :
    finishedOk (add_children soup chain kids wt wa) = true ↔
      (matchPaths soup chain).length ≤ 1 := by
  unfold add_children
  cases h : matchPaths soup chain with
  | nil => simp [acGo, finishedOk]
  | cons p ps =>
    cases ps with
    | nil => simp [acGo, newTag, finishedOk]
    | cons p2 ps2 =>
      simp [acGo, newTag, finishedOk]
